import Mathlib

/-
Verification development for the access-enforcement middleware and the
DNS-provider HTTP handlers of the nginx-proxy-manager backend.

The middleware source (package middleware) provides:
  DecodeAuth  - builds the token-verification middleware from a key pair;
  Enforce     - per-request enforcement: configured-state gate, claim
                extraction, account-enabled check, capability resolution
                through a memory cache, and the permission match loop.
The handler source (package handler) provides the DNS-provider CRUD
handlers; we embed CreateDNSProvider and DeleteDNSProvider.

External collaborators (jwtauth context extraction, user.IsEnabled,
user.GetCapabilities, the cache store, gorm lookups, JSON decoding) are
modelled as explicit inputs; the control flow of the embedded functions
follows the Go source line by line.
-/

namespace NPM

/-- A dynamically-typed claim value as found in the verified token claim
map: a JSON number (Go float64), a string, or anything else. -/
inductive ClaimValue where
  | num (n : Nat)
  | str (s : String)
  | null
deriving DecidableEq

/-- The claim map attached by the token verifier, as key/value pairs. -/
abbrev ClaimMap : Type := List (String × ClaimValue)

/-- Result of jwtauth.FromContext: either an error, or a token
(possibly nil, recorded by tokenPresent) together with the claim map. -/
inductive FromCtxResult where
  | fromCtxErr (msg : String)
  | fromCtxOk (tokenPresent : Bool) (claims : ClaimMap)
deriving DecidableEq

/-- Extraction of the user identifier, embedding the Go expression
uint(claims["uid"].(float64)) at line 51: the unchecked type assertion
succeeds exactly when the key is present and holds a number; any other
shape makes the Go expression panic, which we record by returning none. -/
def getUID (claims : ClaimMap) : Option Nat :=
  match claims.lookup "uid" with
  | some (ClaimValue.num n) => some n
  | _ => none

/-- The full-admin sentinel capability, user.CapabilityFullAdmin.
Modelled from the spec: the constant itself lives in the user package,
outside the provided sources; the spec calls it the full-admin sentinel
recognized by the capability source and the enforcer. -/
def CapabilityFullAdmin : String := "full-admin"

/-- The cache key built at line 62 of the middleware source
(fmt.Sprintf with the "userCapabilties.%v" format, typo preserved). -/
def cacheKeyFor (userID : Nat) : String :=
  "userCapabilties." ++ toString userID

/-- Per-request collaborator state seen by Enforce: the deployment
configured flag, the jwtauth context extraction result, and the three
collaborator lookups (account-enabled, capability cache, backing store).
isEnabled returns (enabled, errored); getCapabilities returns
(capability list, errored), mirroring the Go multi-value returns. -/
structure EnforceEnv where
  isSetup : Bool
  fromCtx : FromCtxResult
  isEnabled : Nat → Bool × Bool
  cacheGet : String → Option (List String)
  getCapabilities : Nat → List String × Bool

/-- Observable outcome of one pass through the middleware: hand the
request to the next handler (with the user id added to the request
context, when added), write an error JSON response with a status code,
or crash on the unchecked type assertion. -/
inductive HttpOutcome where
  | next (ctxUserID : Option Nat)
  | errorJSON (status : Nat) (msg : String)
  | crash
deriving DecidableEq

/-- Everything Enforce does that is observable: the HTTP outcome and the
list of cache writes (AuthCacheSet calls) it performed. -/
structure EnforceResult where
  outcome : HttpOutcome
  cacheWrites : List (String × List String)
deriving DecidableEq

/-- The capability list the match loop runs against, embedding lines
63-74: on cache hit the cached item, on miss whatever the backing store
returned (also when the lookup errored). -/
def resolvedCaps (env : EnforceEnv) (userID : Nat) : List String :=
  match env.cacheGet (cacheKeyFor userID) with
  | some cacheItem => cacheItem
  | none => (env.getCapabilities userID).1

/-- The AuthCacheSet calls made on the same path, embedding lines 63-74:
on cache hit none; on miss the source stores the fetched list only when
the backing-store lookup ERRORED (the err-nil test at line 71 is
inverted relative to the stated intent), so a successful fetch writes
nothing. -/
def cacheWritesFor (env : EnforceEnv) (userID : Nat) : List (String × List String) :=
  match env.cacheGet (cacheKeyFor userID) with
  | some _ => []
  | none =>
    if (env.getCapabilities userID).2 then
      [(cacheKeyFor userID, (env.getCapabilities userID).1)]
    else []

/-- The permission match loop of lines 78-83: hasOnePermission starts
false and is set to true whenever the capability list contains the
full-admin sentinel or the current required permission. -/
def hasOnePermissionLoop (userCapabilities permissions : List String) : Bool :=
  permissions.foldl
    (fun hasOne permission =>
      if userCapabilities.contains CapabilityFullAdmin
          || userCapabilities.contains permission then true
      else hasOne)
    false

/-- The Enforce middleware body (lines 38-101 of the middleware source):
when the deployment is configured, extract context claims (401 on
error), extract the uid (crash on a malformed claim), 401 when the
token is nil or the account is not enabled, and for a non-empty
permission list resolve capabilities through the cache and 403 unless
the match loop succeeds; otherwise pass through, adding the user id to
the context. An unconfigured deployment passes straight through. -/
def Enforce (env : EnforceEnv) (permissions : List String) : EnforceResult :=
  if env.isSetup then
    match env.fromCtx with
    | FromCtxResult.fromCtxErr msg => ⟨HttpOutcome.errorJSON 401 msg, []⟩
    | FromCtxResult.fromCtxOk tokenPresent claims =>
      match getUID claims with
      | none => ⟨HttpOutcome.crash, []⟩
      | some userID =>
        if !tokenPresent || !(env.isEnabled userID).1 then
          ⟨HttpOutcome.errorJSON 401 "Unauthorised", []⟩
        else if permissions.length > 0 then
          if !(hasOnePermissionLoop (resolvedCaps env userID) permissions) then
            ⟨HttpOutcome.errorJSON 403 "Forbidden", cacheWritesFor env userID⟩
          else
            ⟨HttpOutcome.next (some userID), cacheWritesFor env userID⟩
        else
          ⟨HttpOutcome.next (some userID), []⟩
  else
    ⟨HttpOutcome.next none, []⟩

/-- The hoisted form of the decision, written from the spec wording for
the refinement claim: first test the full-admin sentinel, otherwise
test intersection with the required list. -/
def hasOnePermissionHoisted (userCapabilities permissions : List String) : Bool :=
  if userCapabilities.contains CapabilityFullAdmin then true
  else permissions.any (fun permission => userCapabilities.contains permission)

/-- Result of parsing one key at startup: the parsed key (none = Go
nil) and the parse error, mirroring the (key, err) pair returned by
njwt.GetPrivateKey / njwt.GetPublicKey. -/
structure KeyParse where
  key : Option Nat
  err : Option String
deriving DecidableEq

/-- What DecodeAuth produces at startup: either it returns the
verification middleware built over the two keys after logging the
listed messages, and the process keeps serving, or (never produced by
the source) a fatal halt. -/
inductive StartupOutcome where
  | serve (privateKey publicKey : Option Nat) (logged : List String)
  | fatal (msg : String)
deriving DecidableEq

/-- DecodeAuth (lines 20-33 of the middleware source): parse both keys,
log PrivateKeyParseError / PublicKeyParseError when a parse both
errored and yielded a nil key, then unconditionally build the jwtauth
verifier over the keys and return the verification middleware. -/
def DecodeAuth (priv pub : KeyParse) : StartupOutcome :=
  let logged1 := if priv.err.isSome && priv.key.isNone
    then ["PrivateKeyParseError"] else []
  let logged2 := if pub.err.isSome && pub.key.isNone
    then ["PublicKeyParseError"] else []
  StartupOutcome.serve priv.key pub.key (logged1 ++ logged2)

/-- Whether a startup outcome is a fatal halt. -/
def isFatal : StartupOutcome → Bool
  | StartupOutcome.fatal _ => true
  | StartupOutcome.serve _ _ _ => false

/-- The messages logged on the serving path of a startup outcome. -/
def serveLogged : StartupOutcome → List String
  | StartupOutcome.serve _ _ logged => logged
  | StartupOutcome.fatal _ => []

/-- Whether an HTTP outcome is an error response with status 401. -/
def isError401 : HttpOutcome → Bool
  | HttpOutcome.errorJSON 401 _ => true
  | _ => false

end NPM

namespace NPM

/-- A DNS-provider record as decoded from a request body: the owner
user id column plus all remaining columns, abstracted into one field
since the entity definition is outside the provided sources. -/
structure DNSProviderModel (α : Type) where
  userID : Nat
  rest : α
deriving DecidableEq

/-- An HTTP handler response: a success JSON body with a status, an
error JSON with a status and message, or the NotFound helper. -/
inductive HandlerResponse (β : Type) where
  | okJSON (status : Nat) (body : β)
  | errJSON (status : Nat) (msg : String)
  | notFoundResp
deriving DecidableEq

/-- What CreateDNSProvider does observably: the record passed to Save
(none when decoding failed before any save) and the HTTP response. -/
structure CreateResult (α : Type) where
  saved : Option (DNSProviderModel α)
  response : HandlerResponse (DNSProviderModel α)

/-- CreateDNSProvider (lines 62-84 of the handler source): decode the
body (400 on failure), overwrite the decoded userID field with the
token user id taken from the request context (zero value when absent),
save, and answer 400 on a save error or 200 with the saved item. -/
def CreateDNSProvider {α : Type} (ctxUserID : Option Nat)
    (decodedBody : Option (DNSProviderModel α))
    (saveErr : DNSProviderModel α → Option String) : CreateResult α :=
  match decodedBody with
  | none => ⟨none, HandlerResponse.errJSON 400 "Invalid payload"⟩
  | some newItem0 =>
    let newItem : DNSProviderModel α :=
      { newItem0 with userID := ctxUserID.getD 0 }
    { saved := some newItem
    , response :=
        match saveErr newItem with
        | some msg =>
          HandlerResponse.errJSON 400 ("Unable to save DNS Provider: " ++ msg)
        | none => HandlerResponse.okJSON 200 newItem }

/-- Result of dnsprovider.GetByID: record not found, found with the
record, or any other lookup error. -/
inductive LookupResult (α : Type) where
  | notFound
  | found (item : α)
  | otherErr (msg : String)
deriving DecidableEq

/-- DeleteDNSProvider (lines 123-142 of the handler source): parse the
providerID URL parameter (400 on failure), look the record up (404 when
not found, 400 on another lookup error), and on a successful lookup
answer 200 whose body is whatever item.Delete() returned — the delete
error itself, when the delete failed. -/
def DeleteDNSProvider {α : Type} (providerIDResult : Except String Nat)
    (getByID : Nat → LookupResult α) (deleteErr : α → Option String) :
    HandlerResponse (Option String) :=
  match providerIDResult with
  | Except.error msg => HandlerResponse.errJSON 400 msg
  | Except.ok providerID =>
    match getByID providerID with
    | LookupResult.notFound => HandlerResponse.notFoundResp
    | LookupResult.found item => HandlerResponse.okJSON 200 (deleteErr item)
    | LookupResult.otherErr msg => HandlerResponse.errJSON 400 msg

end NPM

namespace NPM

/-- The set-flag fold of the match loop equals an any-test, for every
initial accumulator value. -/
theorem foldl_flag_eq_or (C : String → Bool) (permissions : List String) (acc : Bool) :
    permissions.foldl (fun hasOne p => if C p then true else hasOne) acc
      = (acc || permissions.any C) := by
  induction permissions generalizing acc with
  | nil => simp
  | cons q qs ih =>
    simp only [List.foldl_cons, List.any_cons, ih]
    cases hq : C q <;> simp [hq, Bool.or_assoc]

/-- The match loop of the source equals an any-test over the required
permissions. -/
theorem hasOnePermissionLoop_eq_any (userCapabilities permissions : List String) :
    hasOnePermissionLoop userCapabilities permissions
      = permissions.any (fun p =>
          userCapabilities.contains CapabilityFullAdmin
            || userCapabilities.contains p) := by
  simpa [hasOnePermissionLoop] using
    foldl_flag_eq_or
      (fun p => userCapabilities.contains CapabilityFullAdmin
        || userCapabilities.contains p) permissions false

/-- Semantic reading of the match loop on a non-empty required list:
it succeeds exactly when the capability list holds the full-admin
sentinel or meets the required list. -/
theorem hasOnePermissionLoop_iff (userCapabilities permissions : List String)
    (hNE : permissions ≠ []) :
    hasOnePermissionLoop userCapabilities permissions = true ↔
      (CapabilityFullAdmin ∈ userCapabilities ∨
        ∃ p ∈ permissions, p ∈ userCapabilities) := by
  obtain ⟨q, qs, rfl⟩ := List.exists_cons_of_ne_nil hNE
  rw [hasOnePermissionLoop_eq_any]
  simp only [List.any_eq_true, Bool.or_eq_true, List.elem_iff]
  constructor
  · rintro ⟨p, hp, h | h⟩
    · exact Or.inl h
    · exact Or.inr ⟨p, hp, h⟩
  · rintro (h | ⟨p, hp, h⟩)
    · exact ⟨q, List.mem_cons_self q qs, Or.inl h⟩
    · exact ⟨p, hp, Or.inr h⟩

/-- Evaluation of Enforce on the configured, token-present, enabled
path: it reduces to the permission gate and the match loop over the
cache-resolved capability list. -/
theorem enforce_configured_eval (env : EnforceEnv) (permissions : List String)
    (tokenPresent : Bool) (claims : ClaimMap) (userID : Nat)
    (hSetup : env.isSetup = true)
    (hCtx : env.fromCtx = FromCtxResult.fromCtxOk tokenPresent claims)
    (hTok : tokenPresent = true)
    (hUid : getUID claims = some userID)
    (hEnabled : (env.isEnabled userID).1 = true) :
    Enforce env permissions =
      if permissions.length > 0 then
        if !(hasOnePermissionLoop (resolvedCaps env userID) permissions) then
          ⟨HttpOutcome.errorJSON 403 "Forbidden", cacheWritesFor env userID⟩
        else ⟨HttpOutcome.next (some userID), cacheWritesFor env userID⟩
      else ⟨HttpOutcome.next (some userID), []⟩ := by
  subst hTok
  simp [Enforce, hSetup, hCtx, hUid, hEnabled]

end NPM

namespace NPM

/-- C1: for every request reaching the Access Enforcer in a configured
deployment with an enabled account (token present, well-formed uid
claim), the enforcement decision is: empty required-permission list
allows; a non-empty list allows exactly when the resolved capability
list contains the full-admin sentinel or shares an element with the
required list, and otherwise denies with HTTP 403. -/
theorem enforce_decision (env : EnforceEnv) (permissions : List String)
    (tokenPresent : Bool) (claims : ClaimMap) (userID : Nat)
    (hSetup : env.isSetup = true)
    (hCtx : env.fromCtx = FromCtxResult.fromCtxOk tokenPresent claims)
    (hTok : tokenPresent = true)
    (hUid : getUID claims = some userID)
    (hEnabled : (env.isEnabled userID).1 = true) :
    (permissions = [] →
      (Enforce env permissions).outcome = HttpOutcome.next (some userID)) ∧
    (permissions ≠ [] →
      ((CapabilityFullAdmin ∈ resolvedCaps env userID ∨
          ∃ p ∈ permissions, p ∈ resolvedCaps env userID) →
        (Enforce env permissions).outcome = HttpOutcome.next (some userID)) ∧
      (¬(CapabilityFullAdmin ∈ resolvedCaps env userID ∨
          ∃ p ∈ permissions, p ∈ resolvedCaps env userID) →
        (Enforce env permissions).outcome
          = HttpOutcome.errorJSON 403 "Forbidden")) := by
  rw [enforce_configured_eval env permissions tokenPresent claims userID
    hSetup hCtx hTok hUid hEnabled]
  constructor
  · rintro rfl
    simp
  · intro hNE
    have hlen : permissions.length > 0 := List.length_pos.mpr hNE
    have hiff := hasOnePermissionLoop_iff (resolvedCaps env userID) permissions hNE
    constructor
    · intro hcond
      rw [if_pos hlen, hiff.mpr hcond]
      rfl
    · intro hcond
      have hfalse : hasOnePermissionLoop (resolvedCaps env userID) permissions = false := by
        cases hh : hasOnePermissionLoop (resolvedCaps env userID) permissions
        · rfl
        · exact absurd (hiff.mp hh) hcond
      rw [if_pos hlen, hfalse]
      rfl

/-- Concrete collaborator state: configured deployment, valid token for
user 42, enabled account, cold cache, backing store returning one
capability. -/
def envA : EnforceEnv :=
  { isSetup := true
  , fromCtx := FromCtxResult.fromCtxOk true [("uid", ClaimValue.num 42)]
  , isEnabled := fun _ => (true, false)
  , cacheGet := fun _ => none
  , getCapabilities := fun _ => (["hosts.view"], false) }

/-- Witness for C1: user 42 holding hosts.view is allowed on a route
requiring hosts.view or hosts.edit. -/
theorem enforce_decision_witness :
    (Enforce envA ["hosts.view", "hosts.edit"]).outcome
      = HttpOutcome.next (some 42) := by
  have h := (enforce_decision envA ["hosts.view", "hosts.edit"] true
    [("uid", ClaimValue.num 42)] 42 rfl rfl rfl rfl rfl).2 (by simp)
  exact h.1 (Or.inr ⟨"hosts.view", by simp, by simp [resolvedCaps, envA, cacheKeyFor]⟩)

/-- Collaborator state for the malformed-claim path: the uid claim is a
string, so the unchecked float64 assertion cannot succeed. -/
def envC2 : EnforceEnv :=
  { isSetup := true
  , fromCtx := FromCtxResult.fromCtxOk true [("uid", ClaimValue.str "forty-two")]
  , isEnabled := fun _ => (true, false)
  , cacheGet := fun _ => none
  , getCapabilities := fun _ => ([], false) }

/-- C2 counterexample: with a wrongly-typed uid claim, Enforce crashes
on the unchecked type assertion instead of answering HTTP 401. -/
theorem enforce_missing_uid_counterexample :
    (Enforce envC2 []).outcome = HttpOutcome.crash ∧
      isError401 (Enforce envC2 []).outcome = false := by
  constructor <;> rfl

/-- C2 (amended): for every request whose verified claim set lacks a
user identifier or whose uid claim has the wrong type, Enforce panics
on the unchecked type assertion; no downstream stage executes and no
cache write happens, but no HTTP 401 response is produced. -/
theorem enforce_malformed_uid_crashes (env : EnforceEnv) (permissions : List String)
    (tokenPresent : Bool) (claims : ClaimMap)
    (hSetup : env.isSetup = true)
    (hCtx : env.fromCtx = FromCtxResult.fromCtxOk tokenPresent claims)
    (hUid : getUID claims = none) :
    Enforce env permissions = ⟨HttpOutcome.crash, []⟩ := by
  simp [Enforce, hSetup, hCtx, hUid]

/-- Witness for the amended C2 at the concrete malformed-claim state. -/
theorem enforce_malformed_uid_crashes_witness :
    Enforce envC2 [] = ⟨HttpOutcome.crash, []⟩ :=
  enforce_malformed_uid_crashes envC2 [] true
    [("uid", ClaimValue.str "forty-two")] rfl rfl rfl

/-- Collaborator state for the cache-population path: cold cache and a
SUCCESSFUL backing-store lookup for user 7. -/
def envC3ok : EnforceEnv :=
  { isSetup := true
  , fromCtx := FromCtxResult.fromCtxOk true [("uid", ClaimValue.num 7)]
  , isEnabled := fun _ => (true, false)
  , cacheGet := fun _ => none
  , getCapabilities := fun _ => (["hosts.view"], false) }

/-- Same state but with an ERRORING backing-store lookup for user 7. -/
def envC3err : EnforceEnv :=
  { envC3ok with getCapabilities := fun _ => ([], true) }

/-- C3 evaluation at the failing input: after a successful backing-store
lookup Enforce performs NO cache write, while after an erroring lookup
it stores the (empty) failed result — the err-nil test at line 71 of
the middleware source is inverted. -/
theorem enforce_cache_not_populated_on_success :
    (Enforce envC3ok ["hosts.view"]).cacheWrites = [] ∧
      (Enforce envC3err ["hosts.view"]).cacheWrites
        = [(cacheKeyFor 7, [])] := by
  constructor <;> rfl

end NPM

namespace NPM

/-- C4 counterexample: with both keys failing to parse, DecodeAuth is
not fatal — it logs the two parse errors and still returns the serving
middleware built over nil keys. -/
theorem decodeAuth_counterexample :
    isFatal (DecodeAuth ⟨none, some "bad private key"⟩
        ⟨none, some "bad public key"⟩) = false ∧
      DecodeAuth ⟨none, some "bad private key"⟩ ⟨none, some "bad public key"⟩
        = StartupOutcome.serve none none
            ["PrivateKeyParseError", "PublicKeyParseError"] := by
  constructor <;> rfl

/-- C4 (amended): if the private key fails to parse at startup,
DecodeAuth logs the parse error but still constructs the verifier and
returns the serving middleware; the process proceeds to serve traffic,
with per-request verification left to fail on the nil key. -/
theorem decodeAuth_logs_and_serves (priv pub : KeyParse)
    (hErr : priv.err.isSome = true) (hNil : priv.key = none) :
    isFatal (DecodeAuth priv pub) = false ∧
      "PrivateKeyParseError" ∈ serveLogged (DecodeAuth priv pub) := by
  constructor
  · rfl
  · simp [DecodeAuth, serveLogged, hErr, hNil]

/-- Witness for the amended C4 at a concrete failing key parse. -/
theorem decodeAuth_logs_and_serves_witness :
    isFatal (DecodeAuth ⟨none, some "no pem"⟩ ⟨some 1, none⟩) = false ∧
      "PrivateKeyParseError"
        ∈ serveLogged (DecodeAuth ⟨none, some "no pem"⟩ ⟨some 1, none⟩) :=
  decodeAuth_logs_and_serves ⟨none, some "no pem"⟩ ⟨some 1, none⟩ rfl rfl

/-- C5: in a configured deployment, a disabled account — or an erroring
account-enabled lookup, which under the modelled collaborator reports
enabled = false — is denied with HTTP 401 for every required-permission
list, the empty one included, whatever capabilities the user holds.
The hModel hypothesis is modelled from the spec: user.IsEnabled lives
outside the provided sources, and the spec states an erroring lookup is
treated as unauthenticated (Go zero-value convention). -/
theorem enforce_disabled_401 (env : EnforceEnv) (permissions : List String)
    (tokenPresent : Bool) (claims : ClaimMap) (userID : Nat)
    (hSetup : env.isSetup = true)
    (hCtx : env.fromCtx = FromCtxResult.fromCtxOk tokenPresent claims)
    (hUid : getUID claims = some userID)
    (hModel : (env.isEnabled userID).2 = true → (env.isEnabled userID).1 = false)
    (hFail : (env.isEnabled userID).1 = false ∨ (env.isEnabled userID).2 = true) :
    Enforce env permissions = ⟨HttpOutcome.errorJSON 401 "Unauthorised", []⟩ := by
  have hDis : (env.isEnabled userID).1 = false := by
    rcases hFail with h | h
    · exact h
    · exact hModel h
  simp [Enforce, hSetup, hCtx, hUid, hDis]

/-- Collaborator state: disabled account for user 42 that nevertheless
holds the full-admin capability in the cache. -/
def envC5 : EnforceEnv :=
  { isSetup := true
  , fromCtx := FromCtxResult.fromCtxOk true [("uid", ClaimValue.num 42)]
  , isEnabled := fun _ => (false, false)
  , cacheGet := fun _ => some ["full-admin"]
  , getCapabilities := fun _ => (["full-admin"], false) }

/-- Witness for C5: disabled user 42 gets 401 on an empty-permission
route despite holding full-admin. -/
theorem enforce_disabled_401_witness :
    Enforce envC5 [] = ⟨HttpOutcome.errorJSON 401 "Unauthorised", []⟩ :=
  enforce_disabled_401 envC5 [] true [("uid", ClaimValue.num 42)] 42
    rfl rfl rfl (fun _ => rfl) (Or.inl rfl)

/-- C6: on a non-empty required list, a cache miss and an ERRORING
backing-store lookup, the request is still evaluated with the match
loop over whatever capability list the store returned: the outcome is
pass-through on a match and HTTP 403 otherwise — never a distinct
server-error code. -/
theorem enforce_store_error_folded (env : EnforceEnv) (permissions : List String)
    (claims : ClaimMap) (userID : Nat)
    (hSetup : env.isSetup = true)
    (hCtx : env.fromCtx = FromCtxResult.fromCtxOk true claims)
    (hUid : getUID claims = some userID)
    (hEnabled : (env.isEnabled userID).1 = true)
    (hNE : permissions ≠ [])
    (hMiss : env.cacheGet (cacheKeyFor userID) = none)
    (hErr : (env.getCapabilities userID).2 = true) :
    (Enforce env permissions).outcome =
      if hasOnePermissionLoop (env.getCapabilities userID).1 permissions then
        HttpOutcome.next (some userID)
      else HttpOutcome.errorJSON 403 "Forbidden" := by
  have hres : resolvedCaps env userID = (env.getCapabilities userID).1 := by
    simp [resolvedCaps, hMiss]
  rw [enforce_configured_eval env permissions true claims userID
    hSetup hCtx rfl hUid hEnabled]
  have hlen : permissions.length > 0 := List.length_pos.mpr hNE
  rw [if_pos hlen, hres]
  cases hh : hasOnePermissionLoop (env.getCapabilities userID).1 permissions <;>
    simp [hh]

/-- Collaborator state: cold cache and an erroring backing-store lookup
returning the empty list for user 9. -/
def envC6 : EnforceEnv :=
  { isSetup := true
  , fromCtx := FromCtxResult.fromCtxOk true [("uid", ClaimValue.num 9)]
  , isEnabled := fun _ => (true, false)
  , cacheGet := fun _ => none
  , getCapabilities := fun _ => ([], true) }

/-- Witness for C6: the store error degrades to HTTP 403, not to a
server error. -/
theorem enforce_store_error_folded_witness :
    (Enforce envC6 ["hosts.edit"]).outcome
      = HttpOutcome.errorJSON 403 "Forbidden" := by
  have h := enforce_store_error_folded envC6 ["hosts.edit"]
    [("uid", ClaimValue.num 9)] 9 rfl rfl rfl rfl
    (List.cons_ne_nil _ _) rfl rfl
  simpa using h

/-- C7: with the deployment unconfigured, Enforce passes every request
straight to the downstream handler: no error, no crash, no cache write,
and no user id added to the context, whatever the token, the account
state or the collaborators would have said. -/
theorem enforce_unconfigured_bypass (env : EnforceEnv) (permissions : List String)
    (hSetup : env.isSetup = false) :
    Enforce env permissions = ⟨HttpOutcome.next none, []⟩ := by
  simp [Enforce, hSetup]

/-- Collaborator state: unconfigured deployment where every downstream
check would have failed had it run. -/
def envB : EnforceEnv :=
  { isSetup := false
  , fromCtx := FromCtxResult.fromCtxErr "token absent"
  , isEnabled := fun _ => (false, true)
  , cacheGet := fun _ => none
  , getCapabilities := fun _ => ([], true) }

/-- Witness for C7: the unconfigured deployment lets a tokenless request
through a permission-guarded route. -/
theorem enforce_unconfigured_bypass_witness :
    Enforce envB ["hosts.edit"] = ⟨HttpOutcome.next none, []⟩ :=
  enforce_unconfigured_bypass envB ["hosts.edit"] rfl

/-- C8: on every capability list and non-empty required-permission
list, the per-permission full-admin test inside the match loop computes
the same decision as the hoisted form that first tests the sentinel and
otherwise tests intersection with the required list. -/
theorem loop_eq_hoisted (userCapabilities permissions : List String)
    (hNE : permissions ≠ []) :
    hasOnePermissionLoop userCapabilities permissions
      = hasOnePermissionHoisted userCapabilities permissions := by
  obtain ⟨q, qs, rfl⟩ := List.exists_cons_of_ne_nil hNE
  rw [hasOnePermissionLoop_eq_any, hasOnePermissionHoisted]
  cases hFA : userCapabilities.contains CapabilityFullAdmin <;> simp [hFA]

/-- Witness for C8 at a concrete full-admin capability list. -/
theorem loop_eq_hoisted_witness :
    hasOnePermissionLoop ["full-admin"] ["hosts.edit"]
      = hasOnePermissionHoisted ["full-admin"] ["hosts.edit"] :=
  loop_eq_hoisted ["full-admin"] ["hosts.edit"] (List.cons_ne_nil _ _)

/-- C9: the owner of a created DNS provider comes from the
request-scoped context, never from the body: two decoded bodies equal
outside the user-id column are saved as identical records whose owner
is the context user id (zero when the context has none). -/
theorem createDNSProvider_owner_from_context {α : Type} (ctxUserID : Option Nat)
    (item1 item2 : DNSProviderModel α)
    (saveErr : DNSProviderModel α → Option String)
    (hRest : item1.rest = item2.rest) :
    (CreateDNSProvider ctxUserID (some item1) saveErr).saved
        = (CreateDNSProvider ctxUserID (some item2) saveErr).saved ∧
      (CreateDNSProvider ctxUserID (some item1) saveErr).saved
        = some ⟨ctxUserID.getD 0, item1.rest⟩ := by
  cases item1
  cases item2
  simp_all [CreateDNSProvider]

/-- Witness for C9: bodies claiming owners 99 and 3 both end up owned
by context user 5. -/
theorem createDNSProvider_owner_from_context_witness :
    (CreateDNSProvider (some 5)
        (some (⟨99, "cloudflare"⟩ : DNSProviderModel String))
        (fun _ => none)).saved
      = (CreateDNSProvider (some 5)
          (some (⟨3, "cloudflare"⟩ : DNSProviderModel String))
          (fun _ => none)).saved ∧
    (CreateDNSProvider (some 5)
        (some (⟨99, "cloudflare"⟩ : DNSProviderModel String))
        (fun _ => none)).saved
      = some ⟨5, "cloudflare"⟩ :=
  createDNSProvider_owner_from_context (some 5) ⟨99, "cloudflare"⟩
    ⟨3, "cloudflare"⟩ (fun _ => none) rfl

/-- C10: when the providerID parses and the record lookup succeeds,
DeleteDNSProvider answers HTTP 200 whose body is whatever the delete
operation returned — also when the delete itself failed; the non-200
responses all come from the earlier parse or lookup failures. -/
theorem deleteDNSProvider_200_on_found {α : Type}
    (providerIDResult : Except String Nat)
    (getByID : Nat → LookupResult α) (deleteErr : α → Option String)
    (providerID : Nat) (item : α)
    (hId : providerIDResult = Except.ok providerID)
    (hFound : getByID providerID = LookupResult.found item) :
    DeleteDNSProvider providerIDResult getByID deleteErr
      = HandlerResponse.okJSON 200 (deleteErr item) := by
  subst hId
  simp [DeleteDNSProvider, hFound]

/-- Witness for C10: the delete operation fails, yet the handler still
answers 200 carrying the failure. -/
theorem deleteDNSProvider_200_on_found_witness :
    DeleteDNSProvider (Except.ok 8) (fun _ => LookupResult.found "record8")
        (fun _ => some "delete failed")
      = HandlerResponse.okJSON 200 (some "delete failed") :=
  deleteDNSProvider_200_on_found (Except.ok 8)
    (fun _ => LookupResult.found "record8")
    (fun _ => some "delete failed") 8 "record8" rfl rfl

end NPM
